import Mathlib

/-!
Shallow embedding of the SWR cache-consistency core (`src/cache.ts`,
`src/config.ts`, `src/use-swr.ts`, `src/libs/hash.ts`).

JavaScript machine state is made explicit:
* the module-global registries `CONCURRENT_PROMISES` / `CONCURRENT_PROMISES_TS` /
  `MUTATION_TS` / `MUTATION_END_TS` and the cache `Map` become total functions
  `String → Option _` (`none` = the key is absent / `undefined`);
* promises are identified by a numeric id; a resolution environment
  `resolve : Nat → Except JSVal JSVal` gives each promise's settled outcome
  (`.error` = rejection);
* the suspension points of the `async` functions (`await` in `revalidate` and
  `mutate`) are modelled by an explicit interference function
  `interfere : SWRState → SWRState` describing what concurrent calls did to the
  shared registries while the call was suspended;
* `Date.now()` values are passed in as `Nat` parameters.
-/

set_option autoImplicit false

namespace SWR

/-- An untyped JavaScript value as stored in the cache or produced by a
fetcher.  `obj id` stands for a reference-identified object (errors included);
`undef` is the JavaScript `undefined`. -/
inductive JSVal where
  | undef
  | boolV (b : Bool)
  | num (n : Int)
  | str (s : String)
  | obj (id : Nat)
  deriving DecidableEq, Repr

/-- JavaScript truthiness of a `JSVal` (used by `if (error)` style tests). -/
def jsTruthy : JSVal → Bool
  | .undef => false
  | .boolV b => b
  | .num n => decide (n ≠ 0)
  | .str s => decide (s ≠ "")
  | .obj _ => true

/-- `Map.prototype.get`: an absent key reads as `undefined`. -/
def jsCacheGet (c : String → Option JSVal) (k : String) : JSVal :=
  (c k).getD JSVal.undef

/-- Generic pointwise update of a string-keyed registry (`m[k] = v` for
`v = some _`, `delete m[k]` for `v = none`). -/
def updF {α : Type} (m : String → Option α) (k : String) (v : Option α) :
    String → Option α :=
  fun x => if x = k then v else m x

/-- `updF` specialised to a write. -/
def setK (m : String → Option JSVal) (k : String) (v : JSVal) :
    String → Option JSVal :=
  updF m k (some v)

/-! ## `src/libs/hash.ts` — the composite-key hasher

The module keeps a `WeakMap` from object references to the order in which
they were first seen (`counter`).  We model object references by `Nat` ids and
the `WeakMap` by an association list threaded through every call. -/

/-- A non-object element of a composite key (already a primitive). -/
inductive JSPrim where
  | strP (s : String)
  | numP (n : Int)
  | nanP
  | boolP (b : Bool)
  | nullP
  | undefP
  deriving DecidableEq, Repr

/-- `hash.ts` stringification of a primitive element: strings are quoted, the
rest go through `String(x)`. -/
def jsPrimHashStr : JSPrim → String
  | .strP s => "\"" ++ s ++ "\""
  | .numP n => toString n
  | .nanP => "NaN"
  | .boolP true => "true"
  | .boolP false => "false"
  | .nullP => "null"
  | .undefP => "undefined"

/-- An element of a composite (array) key: `null` / non-objects hash by value,
objects hash by reference identity. -/
inductive HashArg where
  | prim (p : JSPrim)
  | obj (id : Nat)
  deriving DecidableEq, Repr

/-- The object→counter table (the `WeakMap` in `hash.ts`). -/
abbrev HTable := List (Nat × Nat)

/-- Lookup in the object table (first match wins; entries are only ever
inserted when absent, so there is at most one match). -/
def htLookup : HTable → Nat → Option Nat
  | [], _ => none
  | (k, v) :: rest, i => if k = i then some v else htLookup rest i

/-- The mutable module state of `hash.ts`: the `WeakMap` plus the counter. -/
structure HashState where
  table : HTable
  counter : Nat
  deriving DecidableEq, Repr

/-- Hash one element of a composite key, updating the object table exactly the
way `hash.ts` does (`table.set(args[i], counter++)` when unseen). -/
def hashElem (hs : HashState) : HashArg → String × HashState
  | .prim p => (jsPrimHashStr p, hs)
  | .obj i =>
    match htLookup hs.table i with
    | some v => (toString v, hs)
    | none => (toString hs.counter, ⟨(i, hs.counter) :: hs.table, hs.counter + 1⟩)

/-- The accumulator loop of `hash` (`key += '@' + _hash`). -/
def hashGo (acc : String) (hs : HashState) : List HashArg → String × HashState
  | [] => (acc, hs)
  | a :: rest => hashGo (acc ++ "@" ++ (hashElem hs a).1) (hashElem hs a).2 rest

/-- `hash(args)` from `src/libs/hash.ts`: empty array hashes to `''`,
otherwise the fold starts from the string `'arg'`. -/
def hash (hs : HashState) (args : List HashArg) : String × HashState :=
  if args.isEmpty then ("", hs) else hashGo "arg" hs args

/-! ## `serializeKey` (`src/cache.ts`) -/

/-- The value of a key after any key-producer function has been invoked:
a primitive, or a composite array key. -/
inductive SWRKeyBase where
  | strK (s : String)
  | nullK
  | undefK
  | boolK (b : Bool)
  | intK (n : Int)
  | nanK
  | arrK (elems : List HashArg)
  deriving DecidableEq, Repr

/-- Whether `Array.isArray(key)` holds. -/
def SWRKeyBase.isArr : SWRKeyBase → Bool
  | .arrK _ => true
  | _ => false

/-- JavaScript truthiness of a key value (the `key || ''` test). -/
def jsKeyBaseTruthy : SWRKeyBase → Bool
  | .strK s => decide (s ≠ "")
  | .nullK => false
  | .undefK => false
  | .boolK b => b
  | .intK n => decide (n ≠ 0)
  | .nanK => false
  | .arrK _ => true

/-- `String(key)` for a (truthy, non-array) key value. -/
def jsKeyBaseToString : SWRKeyBase → String
  | .strK s => s
  | .boolK true => "true"
  | .boolK false => "false"
  | .intK n => toString n
  | .nanK => "NaN"
  | .nullK => "null"
  | .undefK => "undefined"
  | .arrK _ => ""

/-- A key as passed to the library: either a plain value or a zero-argument
key producer.  `fnKey none` models a producer that throws when invoked,
`fnKey (some b)` one that returns `b`. -/
inductive SWRKey where
  | base (b : SWRKeyBase)
  | fnKey (r : Option SWRKeyBase)
  deriving DecidableEq, Repr

/-- `errorKey = key ? 'err@' + key : ''`. -/
def mkErrorKey (s : String) : String :=
  if s = "" then "" else "err@" ++ s

/-- `serializeKey` after key-producer resolution: arrays are hashed (and kept
verbatim as fetcher arguments), everything else runs through
`String(key || '')`. -/
def serializeKeyBase (hs : HashState) :
    SWRKeyBase → (String × Option (List HashArg) × String) × HashState
  | .arrK elems =>
    (((hash hs elems).1, some elems, mkErrorKey (hash hs elems).1), (hash hs elems).2)
  | b =>
    let s := if jsKeyBaseTruthy b then jsKeyBaseToString b else ""
    ((s, none, mkErrorKey s), hs)

/-- `Cache.serializeKey` (`src/cache.ts` lines 53–77): a throwing key producer
is swallowed and the key treated as `''` (`catch { key = '' }`). -/
def serializeKey (hs : HashState) (k : SWRKey) :
    (String × Option (List HashArg) × String) × HashState :=
  serializeKeyBase hs
    (match k with
     | .base b => b
     | .fnKey (some b) => b
     | .fnKey none => .strK "")

/-! ## The cache store (`Cache.get` / `Cache.set`)

Listener notification (`notify`) only invokes external callbacks and does not
touch the map itself, so it has no footprint in this state model. -/

/-- The state of a `Cache` instance together with the hasher's module state
(which `serializeKey` reads and updates). -/
structure CacheState where
  data : String → Option JSVal
  hs : HashState

/-- `Cache.set(key, value)`: serialize, then write the map. -/
def cacheSet (cs : CacheState) (k : SWRKey) (v : JSVal) : CacheState :=
  ⟨updF cs.data (serializeKey cs.hs k).1.1 (some v), (serializeKey cs.hs k).2⟩

/-- `Cache.get(key)`: serialize, then read the map (`undefined` when absent).
Returns the observed value together with the updated hasher state. -/
def cacheGet (cs : CacheState) (k : SWRKey) : JSVal × CacheState :=
  ⟨(cs.data (serializeKey cs.hs k).1.1).getD JSVal.undef,
   ⟨cs.data, (serializeKey cs.hs k).2⟩⟩

/-! ## The global registries of `use-swr.ts`

`CONCURRENT_PROMISES` holds the in-flight promise per key (here: its id),
`CONCURRENT_PROMISES_TS` its start timestamp, `MUTATION_TS` / `MUTATION_END_TS`
the mutation ledger.  The cache map is the module-global `cache` instance. -/

/-- The shared mutable state the revalidation and mutation engines operate on. -/
structure SWRState where
  cache : String → Option JSVal
  concurrentPromises : String → Option Nat
  concurrentTS : String → Option Nat
  mutationTS : String → Option Nat
  mutationEndTS : String → Option Nat

/-- JavaScript `a > b` where either side may be `undefined` (any comparison
with `undefined` is false). -/
def jsGTOpt : Option Nat → Option Nat → Bool
  | some a, some b => decide (b < a)
  | _, _ => false

/-- JavaScript `a <= b` where either side may be `undefined`. -/
def jsLEOpt : Option Nat → Option Nat → Bool
  | some a, some b => decide (a ≤ b)
  | _, _ => false

/-- Truthiness of a timestamp slot (`MUTATION_TS[key] && ...`): absent or `0`
is falsy. -/
def truthyTS : Option Nat → Bool
  | some n => decide (n ≠ 0)
  | none => false

/-- The ordering / staleness check of `revalidate` (`use-swr.ts` lines
383–408): the fetched result is discarded if a newer fetch for the key started
after this one, or a recorded mutation overlapped it. -/
def shouldIgnoreRequest (st : SWRState) (key : String) (startAt : Option Nat) :
    Bool :=
  jsGTOpt (st.concurrentTS key) startAt ||
    (truthyTS (st.mutationTS key) &&
      (jsLEOpt startAt (st.mutationTS key) ||
        jsLEOpt startAt (st.mutationEndTS key) ||
        decide (st.mutationEndTS key = some 0)))

/-- The options record passed to `revalidate`; both fields may be absent. -/
structure RevOpts where
  dedupe : Option Bool := none
  retryCount : Option Nat := none
  deriving DecidableEq, Repr

/-- `revalidateOpts = Object.assign({ dedupe: false }, revalidateOpts)`
(line 334): after this, the `dedupe` field is always present. -/
def normalizeOpts (o : RevOpts) : RevOpts :=
  { dedupe := some (o.dedupe.getD false), retryCount := o.retryCount }

/-- The options handed to `onErrorRetry` (line 465 and 472):
`Object.assign({ dedupe: true }, revalidateOpts, { retryCount })` with
`retryCount = (revalidateOpts.retryCount || 0) + 1`.  The `dedupe: true`
default only survives when `revalidateOpts` has no own `dedupe` field. -/
def mkRetryOpts (o : RevOpts) : RevOpts :=
  { dedupe := some (o.dedupe.getD true), retryCount := some (o.retryCount.getD 0 + 1) }

/-- One `dispatch(payload)` call: each field of the hook state that the
payload carries (`none` = field absent from the payload). -/
structure Dispatch where
  isValidating : Option Bool := none
  data : Option JSVal := none
  error : Option JSVal := none
  deriving DecidableEq, Repr

/-- A `broadcastState(key, data, error)` call. -/
abbrev Broadcast := String × JSVal × JSVal

/-- Result of the success continuation of `revalidate` (lines 383–439). -/
structure SuccessResult where
  st : SWRState
  dispatches : List Dispatch
  broadcasts : List Broadcast
  ret : Bool

/-- Result of the `catch` block of `revalidate` (lines 440–474);
`retryEmitted` is the options object passed to `onErrorRetry` when
`shouldRetryOnError` is set. -/
structure FailureResult where
  st : SWRState
  dispatches : List Dispatch
  broadcasts : List Broadcast
  retryEmitted : Option RevOpts
  ret : Bool

/-- The code of `revalidate` after `newData = await ...` succeeded
(`use-swr.ts` lines 383–439): run the staleness check; on discard just drop
`isValidating`, on acceptance write data and clear the error key, dispatch the
changed fields, and broadcast unless this call was a dedup join.
`curData` / `curError` are `stateRef.current.data` / `.error`. -/
def revalidateOnSuccess (cmp : JSVal → JSVal → Bool) (st : SWRState)
    (key keyErr : String) (startAt : Option Nat) (newData : JSVal)
    (shouldDeduping : Bool) (curData curError : JSVal) : SuccessResult :=
  if shouldIgnoreRequest st key startAt then
    ⟨st, [⟨some false, none, none⟩], [], false⟩
  else
    ⟨{ st with cache := setK (setK st.cache key newData) keyErr JSVal.undef },
     [⟨some false,
       if cmp curData newData then none else some newData,
       if curError = JSVal.undef then none else some JSVal.undef⟩],
     if shouldDeduping then [] else [(key, newData, JSVal.undef)],
     true⟩

/-- The `catch` block of `revalidate` (`use-swr.ts` lines 440–474): drop the
in-flight registration, cache the error under the error key, dispatch /
broadcast when the error is new (by reference), and emit `onErrorRetry` when
retrying is enabled.  `o` is the normalized options of this call. -/
def revalidateOnFailure (st : SWRState) (key keyErr : String) (err : JSVal)
    (shouldDeduping : Bool) (curError : JSVal) (shouldRetryOnError : Bool)
    (o : RevOpts) : FailureResult :=
  ⟨{ st with
      concurrentPromises := updF st.concurrentPromises key none,
      concurrentTS := updF st.concurrentTS key none,
      cache := setK st.cache keyErr err },
   if curError = err then [] else [⟨some false, none, some err⟩],
   if curError = err ∨ shouldDeduping then [] else [(key, JSVal.undef, err)],
   if shouldRetryOnError then some (mkRetryOpts o) else none,
   true⟩

/-- Everything externally observable that one `revalidate` call did, beyond
its effect on the shared state: whether the fetcher ran, which promise was
awaited and with which `startAt`, the outcome it observed, the value of the
staleness check (success path only), whether the delayed
`delete CONCURRENT_PROMISES[key]` cleanup was scheduled, and the dispatches,
broadcasts and retry emission. -/
structure RevEffects where
  fetcherInvoked : Bool := false
  awaited : Option Nat := none
  usedStartAt : Option Nat := none
  observedOutcome : Option (Except JSVal JSVal) := none
  observedIgnore : Option Bool := none
  cleanupScheduled : Bool := false
  dispatches : List Dispatch := []
  broadcasts : List Broadcast := []
  retryEmitted : Option RevOpts := none

/-- Result of one whole `revalidate` call. -/
structure RevResult where
  st : SWRState
  effects : RevEffects
  ret : Bool

/-- The `dispatch({ isValidating: true })` issued at the top of the `try`. -/
def validatingTrue : Dispatch := ⟨some true, none, none⟩

/-- One complete `revalidate(revalidateOpts)` call (`use-swr.ts` lines
326–481).  `hasFn` is `fn` being bound, `unmounted` is `unmountedRef.current`
at entry, `newPid` the id of the promise a fresh fetch would create, `now` its
`Date.now()`, `resolve` the settlement environment and `interfere` the effect
of concurrent calls during the `await`. -/
def revalidateModel (cmp : JSVal → JSVal → Bool) (st₀ : SWRState)
    (key keyErr : String) (hasFn unmounted : Bool) (opts : RevOpts)
    (now newPid : Nat) (resolve : Nat → Except JSVal JSVal)
    (interfere : SWRState → SWRState) (curData curError : JSVal)
    (shouldRetryOnError : Bool) : RevResult :=
  if key = "" ∨ hasFn = false then ⟨st₀, {}, false⟩
  else if unmounted = true then ⟨st₀, {}, false⟩
  else
    let o := normalizeOpts opts
    if (st₀.concurrentPromises key).isSome && o.dedupe.getD false then
      let pid := (st₀.concurrentPromises key).getD 0
      let startAt := st₀.concurrentTS key
      let st₁ := interfere st₀
      match resolve pid with
      | .ok newData =>
        let r := revalidateOnSuccess cmp st₁ key keyErr startAt newData true
          curData curError
        ⟨r.st,
         { awaited := some pid, usedStartAt := startAt,
           observedOutcome := some (.ok newData),
           observedIgnore := some (shouldIgnoreRequest st₁ key startAt),
           dispatches := validatingTrue :: r.dispatches,
           broadcasts := r.broadcasts },
         r.ret⟩
      | .error err =>
        let r := revalidateOnFailure st₁ key keyErr err true curError
          shouldRetryOnError o
        ⟨r.st,
         { awaited := some pid, usedStartAt := startAt,
           observedOutcome := some (.error err),
           dispatches := validatingTrue :: r.dispatches,
           broadcasts := r.broadcasts, retryEmitted := r.retryEmitted },
         r.ret⟩
    else
      let st₁ : SWRState :=
        { st₀ with
            concurrentPromises := updF st₀.concurrentPromises key (some newPid),
            concurrentTS := updF st₀.concurrentTS key (some now) }
      let st₂ := interfere st₁
      match resolve newPid with
      | .ok newData =>
        let r := revalidateOnSuccess cmp st₂ key keyErr (some now) newData false
          curData curError
        ⟨r.st,
         { fetcherInvoked := true, awaited := some newPid,
           usedStartAt := some now, observedOutcome := some (.ok newData),
           observedIgnore := some (shouldIgnoreRequest st₂ key (some now)),
           cleanupScheduled := true,
           dispatches := validatingTrue :: r.dispatches,
           broadcasts := r.broadcasts },
         r.ret⟩
      | .error err =>
        let r := revalidateOnFailure st₂ key keyErr err false curError
          shouldRetryOnError o
        ⟨r.st,
         { fetcherInvoked := true, awaited := some newPid,
           usedStartAt := some now, observedOutcome := some (.error err),
           dispatches := validatingTrue :: r.dispatches,
           broadcasts := r.broadcasts, retryEmitted := r.retryEmitted },
         r.ret⟩

/-! ## The retry policy (`src/config.ts`, `onErrorRetry`) -/

/-- JavaScript `~~x` (truncation toward zero) on a rational; the operands in
`onErrorRetry` stay far below `2^31`, so the int32 wrap never fires. -/
def jsTrunc (q : ℚ) : Int :=
  if 0 ≤ q then ⌊q⌋ else -⌊-q⌋

/-- The backoff delay of `onErrorRetry` (`config.ts` lines 34–37):
`~~((random + 0.5) * (1 << min(retryCount || 0, 8))) * errorRetryInterval`,
with the random draw `r` passed in explicitly. -/
def onErrorRetryDelay (r : ℚ) (retryCount : Option Nat)
    (errorRetryInterval : Nat) : Nat :=
  (jsTrunc ((r + 1 / 2) * ((1 <<< min (retryCount.getD 0) 8 : Nat) : ℚ))).toNat *
    errorRetryInterval

/-- The drop test of `onErrorRetry` (`config.ts` lines 27–32):
`typeof errorRetryCount === 'number' && opts.retryCount > errorRetryCount`. -/
def retryCountExceeded (retryCount errorRetryCount : Option Nat) : Bool :=
  match errorRetryCount, retryCount with
  | some c, some n => decide (c < n)
  | _, _ => false

/-- `onErrorRetry(_, _, config, revalidate, opts)`: `none` when the retry is
dropped (page hidden, or count exceeded), otherwise the scheduled delay and
the options the re-invocation of `revalidate` will receive. -/
def onErrorRetryModel (documentVisible : Bool) (errorRetryCount : Option Nat)
    (r : ℚ) (errorRetryInterval : Nat) (opts : RevOpts) :
    Option (Nat × RevOpts) :=
  if documentVisible = false then none
  else if retryCountExceeded opts.retryCount errorRetryCount then none
  else some (onErrorRetryDelay r opts.retryCount errorRetryInterval, opts)

/-- The retry chain when every fetch attempt fails: starting from the
(normalized) options of the failing call, each failure emits `onErrorRetry`
with `mkRetryOpts`, which either drops the retry or re-invokes `revalidate`
with those options.  Returns the `retryCount` of every retry that actually
gets scheduled; `fuel` bounds the unrolling. -/
def retryScheduleCounts (documentVisible : Bool)
    (errorRetryCount : Option Nat) : Nat → RevOpts → List Nat
  | 0, _ => []
  | fuel + 1, o =>
    let o2 := mkRetryOpts o
    if documentVisible = false then []
    else if retryCountExceeded o2.retryCount errorRetryCount then []
    else o2.retryCount.getD 0 ::
      retryScheduleCounts documentVisible errorRetryCount fuel o2

/-! ## `mutate` and `trigger` (`use-swr.ts` lines 75–181) -/

/-- The `_data` argument of `mutate` when it is defined: a plain value, an
updater function of the current cached value, or a thenable with a fixed
settlement. -/
inductive MutData where
  | plain (v : JSVal)
  | producer (f : JSVal → Except JSVal JSVal)
  | thenable (o : Except JSVal JSVal)

/-- Whether resolving `_data` suspends (`await` happens only for functions and
thenables). -/
def mutDataSuspends : MutData → Bool
  | .plain _ => false
  | _ => true

/-- Resolution of `_data` (lines 128–144): functions receive the current
cached value; exceptions are captured, not propagated. -/
def resolveMutData : MutData → JSVal → Except JSVal JSVal
  | .plain v, _ => .ok v
  | .producer f, cur => f cur
  | .thenable o, _ => o

/-- The `data` local after resolution (`undefined` when an error was captured). -/
def mutDataOf : Except JSVal JSVal → JSVal
  | .ok d => d
  | .error _ => JSVal.undef

/-- The `error` local after resolution (`undefined` on success). -/
def mutErrOf : Except JSVal JSVal → JSVal
  | .ok _ => JSVal.undef
  | .error e => e

/-- `if (error) throw error; return data` — the abandoned-mutation return
(lines 151–152), with JavaScript truthiness on `error`. -/
inductive MutReturn where
  | undefR
  | triggerR
  | valueR (v : JSVal)
  | throwR (e : JSVal)
  deriving DecidableEq, Repr

/-- The return value of the conflict (abandonment) branch of `mutate`. -/
def mutConflictReturn (res : Except JSVal JSVal) : MutReturn :=
  if jsTruthy (mutErrOf res) then .throwR (mutErrOf res)
  else .valueR (mutDataOf res)

/-- The state right after `mutate` opened its mutation window (lines 119–120):
`MUTATION_TS[key] = Date.now() - 1`, `MUTATION_END_TS[key] = 0`. -/
def mutStB (st₀ : SWRState) (key : String) (now : Nat) : SWRState :=
  { st₀ with
      mutationTS := updF st₀.mutationTS key (some (now - 1)),
      mutationEndTS := updF st₀.mutationEndTS key (some 0) }

/-- The per-key updater invocations issued by `mutate` / `trigger`:
`(shouldRevalidate, data, error, dedupe)` for each registered updater. -/
structure MutEffects where
  updaterCalls : List (Bool × JSVal × JSVal × Bool) := []

/-- Result of one `mutate` call. -/
structure MutResult where
  hs : HashState
  st : SWRState
  effects : MutEffects
  ret : MutReturn

/-- One complete `mutate(_key, _data, shouldRevalidate)` call (`use-swr.ts`
lines 107–181).  `mdata = none` is an undefined `_data` (delegation to
`trigger`); `updaters` is the number of registered `CACHE_REVALIDATORS` for
the key; the updaters' own revalidations are external to this call.  In the
committed branch with updaters the final `cache.get(key)` is read from the
state as this call left it. -/
def mutateModel (hs : HashState) (st₀ : SWRState) (k : SWRKey)
    (mdata : Option MutData) (interfere : SWRState → SWRState)
    (now now2 : Nat) (shouldRevalidate : Bool) (updaters : Nat) : MutResult :=
  let s := serializeKey hs k
  let key := s.1.1
  let keyErr := s.1.2.2
  if key = "" then ⟨s.2, st₀, {}, .undefR⟩
  else
    match mdata with
    | none => ⟨s.2, st₀, {}, .triggerR⟩
    | some md =>
      let stB := mutStB st₀ key now
      let res := resolveMutData md (jsCacheGet stB.cache key)
      let st₁ := if mutDataSuspends md then interfere stB else stB
      if some (now - 1) ≠ st₁.mutationTS key ∨
          st₀.concurrentTS key ≠ st₁.concurrentTS key then
        ⟨s.2, st₁, {}, mutConflictReturn res⟩
      else
        let dataV := mutDataOf res
        let errV := mutErrOf res
        let c1 := if dataV ≠ JSVal.undef then setK st₁.cache key dataV
          else st₁.cache
        let st₂ : SWRState :=
          { st₁ with
              cache := setK c1 keyErr errV,
              mutationEndTS := updF st₁.mutationEndTS key (some (now2 - 1)) }
        ⟨s.2, st₂,
         ⟨(List.range updaters).map
            (fun i => (shouldRevalidate, dataV, errV, decide (0 < i)))⟩,
         if 0 < updaters then
           (if jsTruthy errV then .throwR errV
            else .valueR (jsCacheGet st₂.cache key))
         else
           (if jsTruthy errV then .throwR errV else .valueR dataV)⟩

/-- One `trigger(_key, shouldRevalidate)` call (`use-swr.ts` lines 75–96):
empty key resolves to `undefined` immediately; otherwise every registered
updater is invoked with the current cached data and error.  The final read
`cache.get(key)` is taken from the state as this call sees it (updaters run
externally). -/
def triggerModel (hs : HashState) (st : SWRState) (k : SWRKey)
    (shouldRevalidate : Bool) (updaters : Nat) :
    HashState × MutEffects × JSVal :=
  let s := serializeKey hs k
  let key := s.1.1
  let keyErr := s.1.2.2
  if key = "" then (s.2, {}, JSVal.undef)
  else if 0 < updaters then
    (s.2,
     ⟨(List.range updaters).map
        (fun i => (shouldRevalidate, jsCacheGet st.cache key,
          jsCacheGet st.cache keyErr, decide (0 < i)))⟩,
     jsCacheGet st.cache key)
  else (s.2, {}, jsCacheGet st.cache key)

/-! ## Concrete sample states used by the witnesses -/

/-- A shared state with every registry empty. -/
def stEmpty : SWRState :=
  ⟨fun _ => none, fun _ => none, fun _ => none, fun _ => none, fun _ => none⟩

/-- A shared state where key `"k"` has an in-flight fetch: promise id 3,
start timestamp 7. -/
def stInFlight : SWRState :=
  { stEmpty with
      concurrentPromises := fun k => if k = "k" then some 3 else none,
      concurrentTS := fun k => if k = "k" then some 7 else none }

/-! ## Hash-table stability

`hash` mutates the object table, but only by inserting bindings for objects
it has not seen; re-hashing the same key therefore reproduces the same
string.  This is what makes `Cache.set` / `Cache.get` (each of which calls
`serializeKey` afresh) address the same slot. -/

/-- `h2`'s object table preserves every binding present in `h1`'s. -/
def HExtends (h1 h2 : HashState) : Prop :=
  ∀ i v, htLookup h1.table i = some v → htLookup h2.table i = some v

theorem hExtends_refl (h : HashState) : HExtends h h := fun _ _ hv => hv

theorem hExtends_trans {a b c : HashState} (h1 : HExtends a b)
    (h2 : HExtends b c) : HExtends a c :=
  fun i v hv => h2 i v (h1 i v hv)

theorem hashElem_extends (hs : HashState) (a : HashArg) :
    HExtends hs (hashElem hs a).2 := by
  cases a with
  | prim p => exact hExtends_refl hs
  | obj i =>
    intro j v hv
    simp only [hashElem]
    cases hl : htLookup hs.table i with
    | some w => simpa using hv
    | none =>
      simp only [htLookup]
      by_cases hij : i = j
      · subst hij
        rw [hl] at hv
        exact absurd hv (by simp)
      · simp [hij, hv]

theorem hashElem_stable_ext {hs hs1 hs2 : HashState} {a : HashArg} {h : String}
    (hstep : hashElem hs a = (h, hs1)) (hext : HExtends hs1 hs2) :
    hashElem hs2 a = (h, hs2) := by
  cases a with
  | prim p =>
    simp only [hashElem] at hstep ⊢
    rw [Prod.mk.injEq] at hstep
    exact Prod.ext hstep.1 rfl
  | obj i =>
    cases hl : htLookup hs.table i with
    | some w =>
      simp only [hashElem, hl] at hstep
      rw [Prod.mk.injEq] at hstep
      obtain ⟨rfl, rfl⟩ := hstep
      have : htLookup hs2.table i = some w := hext i w hl
      simp [hashElem, this]
    | none =>
      simp only [hashElem, hl] at hstep
      rw [Prod.mk.injEq] at hstep
      obtain ⟨rfl, rfl⟩ := hstep
      have hmem : htLookup ((i, hs.counter) :: hs.table) i = some hs.counter := by
        simp [htLookup]
      have h2 : htLookup hs2.table i = some hs.counter := hext i hs.counter hmem
      simp [hashElem, h2]

theorem hashGo_extends (args : List HashArg) (acc : String) (hs : HashState) :
    HExtends hs (hashGo acc hs args).2 := by
  induction args generalizing acc hs with
  | nil => exact hExtends_refl hs
  | cons a rest ih =>
    exact hExtends_trans (hashElem_extends hs a) (ih _ _)

theorem hashGo_stable (args : List HashArg) (acc : String) (hs : HashState)
    {s : String} {hs' : HashState} (h : hashGo acc hs args = (s, hs')) :
    hashGo acc hs' args = (s, hs') := by
  induction args generalizing acc hs with
  | nil =>
    simp only [hashGo] at h ⊢
    rw [Prod.mk.injEq] at h
    exact Prod.ext h.1 rfl
  | cons a rest ih =>
    simp only [hashGo] at h ⊢
    have hext : HExtends (hashElem hs a).2 hs' := by
      have he := hashGo_extends rest (acc ++ "@" ++ (hashElem hs a).1)
        (hashElem hs a).2
      rwa [h] at he
    have he2 : hashElem hs' a = ((hashElem hs a).1, hs') :=
      hashElem_stable_ext rfl hext
    rw [he2]
    exact ih _ _ h

theorem hash_stable {hs hs' : HashState} {args : List HashArg} {s : String}
    (h : hash hs args = (s, hs')) : hash hs' args = (s, hs') := by
  by_cases he : args.isEmpty
  · simp only [hash, if_pos he] at h ⊢
    rw [Prod.mk.injEq] at h
    exact Prod.ext h.1 rfl
  · simp only [hash, if_neg he] at h ⊢
    exact hashGo_stable args _ _ h

theorem serializeKeyBase_stable {hs hs' : HashState} {kb : SWRKeyBase}
    {r : String × Option (List HashArg) × String}
    (h : serializeKeyBase hs kb = (r, hs')) :
    serializeKeyBase hs' kb = (r, hs') := by
  cases kb
  case arrK elems =>
    simp only [serializeKeyBase] at h ⊢
    rw [Prod.mk.injEq] at h
    have harg : hash hs elems = ((hash hs elems).1, hs') := by
      rw [← h.2]
    have hh : hash hs' elems = ((hash hs elems).1, hs') := hash_stable harg
    rw [hh]
    exact Prod.ext (by rw [← h.1]) rfl
  all_goals
    simp only [serializeKeyBase] at h
    rw [Prod.mk.injEq] at h
    obtain ⟨h1, rfl⟩ := h
    simp only [serializeKeyBase]
    exact Prod.ext h1 rfl

theorem serializeKey_stable {hs hs' : HashState} {k : SWRKey}
    {r : String × Option (List HashArg) × String}
    (h : serializeKey hs k = (r, hs')) : serializeKey hs' k = (r, hs') := by
  unfold serializeKey at h ⊢
  exact serializeKeyBase_stable h

/-! ## Branch facts about the revalidation continuations -/

theorem revalidateOnSuccess_ret (cmp : JSVal → JSVal → Bool) (st : SWRState)
    (key keyErr : String) (sa : Option Nat) (nd : JSVal) (dd : Bool)
    (cd ce : JSVal) :
    (revalidateOnSuccess cmp st key keyErr sa nd dd cd ce).ret =
      !shouldIgnoreRequest st key sa := by
  unfold revalidateOnSuccess
  cases h : shouldIgnoreRequest st key sa <;> simp [h]

theorem revalidateOnFailure_ret (st : SWRState) (key keyErr : String)
    (err : JSVal) (dd : Bool) (ce : JSVal) (sre : Bool) (o : RevOpts) :
    (revalidateOnFailure st key keyErr err dd ce sre o).ret = true := rfl

/-- Any of the claim's race conditions makes the staleness check fire. -/
theorem shouldIgnore_of_conditions (st : SWRState) (key : String) (t1 : Nat)
    (h : (∃ t2, st.concurrentTS key = some t2 ∧ t1 < t2) ∨
         (∃ mts, st.mutationTS key = some mts ∧ mts ≠ 0 ∧
            (t1 ≤ mts ∨ (∃ mte, st.mutationEndTS key = some mte ∧ t1 ≤ mte) ∨
             st.mutationEndTS key = some 0))) :
    shouldIgnoreRequest st key (some t1) = true := by
  unfold shouldIgnoreRequest
  rcases h with ⟨t2, hts, hlt⟩ | ⟨mts, hm, hnz, hcase⟩
  · simp [jsGTOpt, hts, hlt]
  · rcases hcase with h1 | ⟨mte, hme, hle⟩ | h0 <;>
      simp [truthyTS, jsLEOpt, jsGTOpt, hm, hnz, *]

/-- C9: for every key and storable value, `store.set(K, X)` followed by
`store.get(K)` (no intervening write to `K`) returns `X`, from any prior
cache/hash-table state, because both operations canonicalize `K` through the
same `serializeKey` and re-serialization is stable. -/
theorem claim_C9 (cs : CacheState) (k : SWRKey) (v : JSVal) :
    (cacheGet (cacheSet cs k v) k).1 = v := by
  have hst : serializeKey (serializeKey cs.hs k).2 k =
      ((serializeKey cs.hs k).1, (serializeKey cs.hs k).2) :=
    serializeKey_stable rfl
  simp [cacheGet, cacheSet, hst, updF]

/-- C1: when a fetch's success continuation runs with start timestamp `t1`
while a newer in-flight timestamp `t2 > t1` is registered, or a recorded
mutation has `mutationStartedAt ≥ t1`, `mutationEndedAt ≥ t1`, or
`mutationEndedAt = 0`, the result is discarded: `isValidating` is dispatched
to `false`, the state (cache and error key included) is untouched, nothing is
broadcast, and the call resolves to `false` — last-started-wins. -/
theorem claim_C1 (cmp : JSVal → JSVal → Bool) (st : SWRState)
    (key keyErr : String) (t1 : Nat) (newData : JSVal) (dd : Bool)
    (curData curError : JSVal)
    (h : (∃ t2, st.concurrentTS key = some t2 ∧ t1 < t2) ∨
         (∃ mts, st.mutationTS key = some mts ∧ mts ≠ 0 ∧
            (t1 ≤ mts ∨ (∃ mte, st.mutationEndTS key = some mte ∧ t1 ≤ mte) ∨
             st.mutationEndTS key = some 0))) :
    revalidateOnSuccess cmp st key keyErr (some t1) newData dd curData curError =
      ⟨st, [⟨some false, none, none⟩], [], false⟩ := by
  unfold revalidateOnSuccess
  rw [if_pos]
  exact of_decide_eq_true (by rw [decide_eq_true_eq]
                              exact shouldIgnore_of_conditions st key t1 h)

/-- C1 witness: a concrete fetch with `startAt = 5` racing an in-flight fetch
registered at timestamp 7 is discarded. -/
theorem claim_C1_witness :
    stInFlight.concurrentTS "k" = some 7 ∧ 5 < 7 ∧
    revalidateOnSuccess (fun _ _ => false) stInFlight "k" "err@k" (some 5)
        (JSVal.num 1) false JSVal.undef JSVal.undef =
      ⟨stInFlight, [⟨some false, none, none⟩], [], false⟩ :=
  ⟨by simp [stInFlight, stEmpty], by decide,
   claim_C1 (fun _ _ => false) stInFlight "k" "err@k" 5 (JSVal.num 1) false
     JSVal.undef JSVal.undef (Or.inl ⟨7, by simp [stInFlight, stEmpty], by decide⟩)⟩

/-- C4: every completed (non-discarded) fetch attempt leaves the error-key
entry reflecting its outcome: a successful fetch writes the new data and sets
the error-key slot to `undefined` in the same step, and a failed fetch writes
the thrown error to the error-key slot. -/
theorem claim_C4 :
    (∀ (cmp : JSVal → JSVal → Bool) (st : SWRState) (key keyErr : String)
       (sa : Option Nat) (newData : JSVal) (dd : Bool) (cd ce : JSVal),
       keyErr ≠ key →
       shouldIgnoreRequest st key sa = false →
       (revalidateOnSuccess cmp st key keyErr sa newData dd cd ce).st.cache keyErr =
           some JSVal.undef ∧
         (revalidateOnSuccess cmp st key keyErr sa newData dd cd ce).st.cache key =
           some newData) ∧
    (∀ (st : SWRState) (key keyErr : String) (err : JSVal) (dd : Bool)
       (ce : JSVal) (sre : Bool) (o : RevOpts),
       (revalidateOnFailure st key keyErr err dd ce sre o).st.cache keyErr =
         some err) := by
  constructor
  · intro cmp st key keyErr sa newData dd cd ce hne hig
    have hks : ¬(key = keyErr) := fun hk => hne hk.symm
    simp [revalidateOnSuccess, hig, setK, updF, hks]
  · intro st key keyErr err dd ce sre o
    simp [revalidateOnFailure, setK, updF]

/-- C4 witness: with empty registries the staleness check is off; a concrete
successful fetch stores the data and clears `err@k`, a failed one stores the
error object under `err@k`. -/
theorem claim_C4_witness :
    ("err@k" : String) ≠ "k" ∧
    shouldIgnoreRequest stEmpty "k" (some 5) = false ∧
    ((revalidateOnSuccess (fun _ _ => false) stEmpty "k" "err@k" (some 5)
        (JSVal.num 1) false JSVal.undef JSVal.undef).st.cache "err@k" =
        some JSVal.undef ∧
      (revalidateOnSuccess (fun _ _ => false) stEmpty "k" "err@k" (some 5)
        (JSVal.num 1) false JSVal.undef JSVal.undef).st.cache "k" =
        some (JSVal.num 1)) ∧
    (revalidateOnFailure stEmpty "k" "err@k" (JSVal.obj 9) false JSVal.undef
        false ⟨none, none⟩).st.cache "err@k" = some (JSVal.obj 9) :=
  ⟨by decide, by simp [stEmpty, shouldIgnoreRequest, jsGTOpt, truthyTS],
   claim_C4.1 (fun _ _ => false) stEmpty "k" "err@k" (some 5) (JSVal.num 1)
     false JSVal.undef JSVal.undef (by decide)
     (by simp [stEmpty, shouldIgnoreRequest, jsGTOpt, truthyTS]),
   claim_C4.2 stEmpty "k" "err@k" (JSVal.obj 9) false JSVal.undef false
     ⟨none, none⟩⟩

/-- C8: a zero-argument key producer that throws is swallowed by
`serializeKey` — the canonical key and the error key are both empty and no
error propagates (the model is total) — so `mutate` and `trigger` on that key
return immediately without touching any state. -/
theorem claim_C8 (hs : HashState) (st : SWRState) (mdata : Option MutData)
    (interfere : SWRState → SWRState) (now now2 : Nat) (sr srv : Bool)
    (u : Nat) :
    serializeKey hs (.fnKey none) = (("", none, ""), hs) ∧
    mutateModel hs st (.fnKey none) mdata interfere now now2 sr u =
      ⟨hs, st, ⟨[]⟩, .undefR⟩ ∧
    triggerModel hs st (.fnKey none) srv u = (hs, ⟨[]⟩, JSVal.undef) := by
  have hser : serializeKey hs (.fnKey none) = (("", none, ""), hs) := rfl
  refine ⟨hser, ?_, ?_⟩
  · cases mdata <;> simp [mutateModel, hser]
  · simp [triggerModel, hser]

/-- C10: every falsy non-function, non-array key (`null`, `undefined`,
`false`, `0`, `NaN`, `""`) serializes to the empty canonical key with empty
error key, and `mutate` / `trigger` on it return immediately without touching
the cache, the timestamps, or any subscriber. -/
theorem claim_C10 (kb : SWRKeyBase) (harr : kb.isArr = false)
    (hfal : jsKeyBaseTruthy kb = false) (hs : HashState) (st : SWRState)
    (mdata : Option MutData) (interfere : SWRState → SWRState)
    (now now2 : Nat) (sr srv : Bool) (u : Nat) :
    serializeKey hs (.base kb) = (("", none, ""), hs) ∧
    mutateModel hs st (.base kb) mdata interfere now now2 sr u =
      ⟨hs, st, ⟨[]⟩, .undefR⟩ ∧
    triggerModel hs st (.base kb) srv u = (hs, ⟨[]⟩, JSVal.undef) := by
  have hser : serializeKey hs (.base kb) = (("", none, ""), hs) := by
    cases kb <;>
      simp_all [serializeKey, serializeKeyBase, SWRKeyBase.isArr, mkErrorKey]
  refine ⟨hser, ?_, ?_⟩
  · cases mdata <;> simp [mutateModel, hser]
  · simp [triggerModel, hser]

/-- C10 witness: the falsy key `0` is absorbed into the no-resource sentinel
and `mutate` on it is a complete no-op. -/
theorem claim_C10_witness :
    (SWRKeyBase.intK 0).isArr = false ∧
    jsKeyBaseTruthy (SWRKeyBase.intK 0) = false ∧
    serializeKey ⟨[], 0⟩ (.base (SWRKeyBase.intK 0)) = (("", none, ""), ⟨[], 0⟩) ∧
    mutateModel ⟨[], 0⟩ stEmpty (.base (SWRKeyBase.intK 0))
        (some (MutData.plain (JSVal.num 5))) id 10 20 true 2 =
      ⟨⟨[], 0⟩, stEmpty, ⟨[]⟩, .undefR⟩ :=
  ⟨by decide, by decide,
   (claim_C10 (SWRKeyBase.intK 0) (by decide) (by decide) ⟨[], 0⟩ stEmpty
      (some (MutData.plain (JSVal.num 5))) id 10 20 true true 2).1,
   ((claim_C10 (SWRKeyBase.intK 0) (by decide) (by decide) ⟨[], 0⟩ stEmpty
      (some (MutData.plain (JSVal.num 5))) id 10 20 true true 2).2).1⟩

/-- C5 (code evaluation): under the normalization
`revalidateOpts = Object.assign({dedupe: false}, revalidateOpts)` the options
object always carries its own `dedupe` field, so the `{dedupe: true}` default
of the retry emission is always overridden.  A failing `revalidate({})` chain
therefore schedules its retries with `dedupe = false`, contradicting the
code's own comment "when retrying, we always enable deduping".  The
retry-count cap itself behaves as specified: with `errorRetryCount = 2`
exactly the retries with counts 1 and 2 are scheduled, and with no
`errorRetryCount` the chain never stops (one retry per unit of fuel). -/
theorem claim_C5 :
    mkRetryOpts (normalizeOpts ⟨none, none⟩) = ⟨some false, some 1⟩ ∧
    mkRetryOpts (normalizeOpts ⟨some true, none⟩) = ⟨some true, some 1⟩ ∧
    retryScheduleCounts true (some 2) 5 (normalizeOpts ⟨none, none⟩) = [1, 2] ∧
    retryScheduleCounts true none 5 (normalizeOpts ⟨none, none⟩) =
      [1, 2, 3, 4, 5] := by
  refine ⟨rfl, rfl, ?_, ?_⟩ <;> decide

/-- C6: for a uniform draw `r ∈ [0, 1)` and retry count `n`, the scheduled
backoff delay of `onErrorRetry` equals
`⌊(r + 1/2) * 2 ^ min n 8⌋ * errorRetryInterval` — exponential in `n` with
the multiplier capped at `2^8` — and the pre-truncation jitter factor lies in
`[1/2, 3/2) * 2 ^ min n 8`. -/
theorem claim_C6 (r : ℚ) (n interval : Nat) (h0 : 0 ≤ r) (h1 : r < 1) :
    onErrorRetryDelay r (some n) interval =
      (⌊(r + 1 / 2) * (2 : ℚ) ^ min n 8⌋).toNat * interval ∧
    (2 : ℚ) ^ min n 8 / 2 ≤ (r + 1 / 2) * (2 : ℚ) ^ min n 8 ∧
    (r + 1 / 2) * (2 : ℚ) ^ min n 8 < 3 / 2 * (2 : ℚ) ^ min n 8 := by
  have hpow : ((1 <<< min n 8 : Nat) : ℚ) = (2 : ℚ) ^ min n 8 := by
    rw [Nat.shiftLeft_eq, one_mul]
    push_cast
    rfl
  have hpos : (0 : ℚ) < (2 : ℚ) ^ min n 8 := by positivity
  refine ⟨?_, ?_, ?_⟩
  · have hq : (0 : ℚ) ≤ (r + 1 / 2) * (2 : ℚ) ^ min n 8 :=
      mul_nonneg (by linarith) hpos.le
    unfold onErrorRetryDelay jsTrunc
    simp only [Option.getD_some]
    rw [hpow]
    push_cast
    rw [if_pos hq]
  · calc (2 : ℚ) ^ min n 8 / 2 = 1 / 2 * (2 : ℚ) ^ min n 8 := by ring
      _ ≤ (r + 1 / 2) * (2 : ℚ) ^ min n 8 :=
        mul_le_mul_of_nonneg_right (by linarith) hpos.le
  · exact mul_lt_mul_of_pos_right (by linarith) hpos

/-- C6 witness: with `r = 1/3`, `n = 2`, interval 1000 the formula applies
and evaluates to `⌊(1/3 + 1/2) * 4⌋ * 1000 = 3000`. -/
theorem claim_C6_witness :
    (0 : ℚ) ≤ 1 / 3 ∧ (1 / 3 : ℚ) < 1 ∧
    onErrorRetryDelay (1 / 3) (some 2) 1000 =
      (⌊((1 : ℚ) / 3 + 1 / 2) * (2 : ℚ) ^ min 2 8⌋).toNat * 1000 ∧
    onErrorRetryDelay (1 / 3) (some 2) 1000 = 3000 :=
  ⟨by norm_num, by norm_num,
   (claim_C6 (1 / 3) 2 1000 (by norm_num) (by norm_num)).1,
   by norm_num [onErrorRetryDelay, jsTrunc, Nat.shiftLeft_eq]; rfl⟩

/-- C2: a `revalidate(K, {dedupe: true})` issued while an in-flight promise
for `K` is registered invokes no fetcher: it awaits the registered promise
(`awaited = pid`), adopts the promise's recorded start timestamp as its own
`startAt`, and observes exactly the settlement of that shared promise — the
same fetched result every other caller awaiting `pid` (the registering call
included) observes. -/
theorem claim_C2 (cmp : JSVal → JSVal → Bool) (st₀ : SWRState)
    (key keyErr : String) (opts : RevOpts) (now newPid : Nat)
    (resolve : Nat → Except JSVal JSVal) (interfere : SWRState → SWRState)
    (curData curError : JSVal) (sre : Bool) (pid : Nat)
    (hkey : key ≠ "")
    (hreg : st₀.concurrentPromises key = some pid)
    (hded : opts.dedupe = some true) :
    (revalidateModel cmp st₀ key keyErr true false opts now newPid resolve
        interfere curData curError sre).effects.fetcherInvoked = false ∧
    (revalidateModel cmp st₀ key keyErr true false opts now newPid resolve
        interfere curData curError sre).effects.awaited = some pid ∧
    (revalidateModel cmp st₀ key keyErr true false opts now newPid resolve
        interfere curData curError sre).effects.usedStartAt =
      st₀.concurrentTS key ∧
    (revalidateModel cmp st₀ key keyErr true false opts now newPid resolve
        interfere curData curError sre).effects.observedOutcome =
      some (resolve pid) := by
  unfold revalidateModel
  simp only [hreg, normalizeOpts, hded, Option.getD_some, Option.isSome_some,
    Bool.and_self, if_true, hkey]
  cases hres : resolve pid <;> simp [hres, hkey]

/-- C2 witness: a concrete dedup join against the in-flight promise 3 of
`stInFlight`: no fetcher invocation, promise 3 awaited, `startAt = 7`. -/
theorem claim_C2_witness :
    ("k" : String) ≠ "" ∧ stInFlight.concurrentPromises "k" = some 3 ∧
    (RevOpts.mk (some true) none).dedupe = some true ∧
    (revalidateModel (fun _ _ => false) stInFlight "k" "err@k" true false
        ⟨some true, none⟩ 9 4 (fun _ => Except.ok (JSVal.num 2)) id
        JSVal.undef JSVal.undef true).effects.fetcherInvoked = false ∧
    (revalidateModel (fun _ _ => false) stInFlight "k" "err@k" true false
        ⟨some true, none⟩ 9 4 (fun _ => Except.ok (JSVal.num 2)) id
        JSVal.undef JSVal.undef true).effects.awaited = some 3 ∧
    (revalidateModel (fun _ _ => false) stInFlight "k" "err@k" true false
        ⟨some true, none⟩ 9 4 (fun _ => Except.ok (JSVal.num 2)) id
        JSVal.undef JSVal.undef true).effects.observedOutcome =
      some (Except.ok (JSVal.num 2)) := by
  have h := claim_C2 (fun _ _ => false) stInFlight "k" "err@k"
    ⟨some true, none⟩ 9 4 (fun _ => Except.ok (JSVal.num 2)) id
    JSVal.undef JSVal.undef true 3 (by decide)
    (by simp [stInFlight, stEmpty]) rfl
  exact ⟨by decide, by simp [stInFlight, stEmpty], rfl, h.1, h.2.1, h.2.2.2⟩

/-- C3: when a `mutate` whose value resolution suspends detects that the
key's mutation timestamp or in-flight-fetch timestamp changed across the
suspension, it abandons the mutation: the shared state is exactly what the
interleaving left (no cache write, no error-key write), no updater is
invoked, and the call still re-raises the captured resolution error if one
was captured, otherwise returns the resolved value. -/
theorem claim_C3 (hs hs1 : HashState) (st₀ : SWRState) (k : SWRKey)
    (key : String) (args : Option (List HashArg)) (keyErr : String)
    (md : MutData) (interfere : SWRState → SWRState) (now now2 : Nat)
    (sr : Bool) (u : Nat)
    (hser : serializeKey hs k = ((key, args, keyErr), hs1))
    (hkey : key ≠ "")
    (hsusp : mutDataSuspends md = true)
    (hconf : some (now - 1) ≠ (interfere (mutStB st₀ key now)).mutationTS key ∨
        st₀.concurrentTS key ≠ (interfere (mutStB st₀ key now)).concurrentTS key) :
    (mutateModel hs st₀ k (some md) interfere now now2 sr u).st =
        interfere (mutStB st₀ key now) ∧
    (mutateModel hs st₀ k (some md) interfere now now2 sr u).effects = ⟨[]⟩ ∧
    (mutateModel hs st₀ k (some md) interfere now now2 sr u).hs = hs1 ∧
    (∀ e, resolveMutData md (jsCacheGet (mutStB st₀ key now).cache key) =
        Except.error e → jsTruthy e = true →
        (mutateModel hs st₀ k (some md) interfere now now2 sr u).ret =
          MutReturn.throwR e) ∧
    (∀ d, resolveMutData md (jsCacheGet (mutStB st₀ key now).cache key) =
        Except.ok d →
        (mutateModel hs st₀ k (some md) interfere now now2 sr u).ret =
          MutReturn.valueR d) := by
  have hm : mutateModel hs st₀ k (some md) interfere now now2 sr u =
      ⟨hs1, interfere (mutStB st₀ key now), ⟨[]⟩,
       mutConflictReturn
         (resolveMutData md (jsCacheGet (mutStB st₀ key now).cache key))⟩ := by
    unfold mutateModel
    rw [hser]
    simp only [hsusp, if_true]
    rw [if_neg hkey, if_pos hconf]
  refine ⟨by rw [hm], by rw [hm], by rw [hm], ?_, ?_⟩
  · intro e he htr
    rw [hm]
    simp [mutConflictReturn, he, mutErrOf, htr]
  · intro d hd
    rw [hm]
    simp [mutConflictReturn, hd, mutErrOf, mutDataOf, jsTruthy]

/-- C3 witness: a thenable mutation value that rejects with object 3 while
the interleaving bumps the key's mutation timestamp to 99: the state stays as
the interleaving left it and the error is re-raised. -/
theorem claim_C3_witness :
    serializeKey ⟨[], 0⟩ (.base (.strK "k")) = (("k", none, "err@k"), ⟨[], 0⟩) ∧
    ("k" : String) ≠ "" ∧
    mutDataSuspends (MutData.thenable (Except.error (JSVal.obj 3))) = true ∧
    some (10 - 1) ≠
      ((fun s : SWRState => { s with mutationTS := fun _ => some 99 })
        (mutStB stEmpty "k" 10)).mutationTS "k" ∧
    (mutateModel ⟨[], 0⟩ stEmpty (.base (.strK "k"))
        (some (MutData.thenable (Except.error (JSVal.obj 3))))
        (fun s => { s with mutationTS := fun _ => some 99 }) 10 20 true 2).ret =
      MutReturn.throwR (JSVal.obj 3) := by
  have h := claim_C3 ⟨[], 0⟩ ⟨[], 0⟩ stEmpty (.base (.strK "k")) "k" none
    "err@k" (MutData.thenable (Except.error (JSVal.obj 3)))
    (fun s => { s with mutationTS := fun _ => some 99 }) 10 20 true 2
    rfl (by decide) rfl (Or.inl (by decide))
  exact ⟨rfl, by decide, rfl, by decide, h.2.2.2.1 (JSVal.obj 3) rfl rfl⟩

/-- C7: `revalidate` resolves to `false` exactly when it is a no-op (empty
key, no fetch function, or the owning hook already unmounted) or when the
staleness check discarded a successful fetch (`observedIgnore = some true`);
in every other case in which a fetch attempt ran — the fetcher rejecting
included (second conjunct) — it resolves to `true`. -/
theorem claim_C7 (cmp : JSVal → JSVal → Bool) (st₀ : SWRState)
    (key keyErr : String) (hasFn unmounted : Bool) (opts : RevOpts)
    (now newPid : Nat) (resolve : Nat → Except JSVal JSVal)
    (interfere : SWRState → SWRState) (curData curError : JSVal)
    (sre : Bool) :
    ((revalidateModel cmp st₀ key keyErr hasFn unmounted opts now newPid
        resolve interfere curData curError sre).ret = false ↔
      (key = "" ∨ hasFn = false ∨ unmounted = true ∨
        (revalidateModel cmp st₀ key keyErr hasFn unmounted opts now newPid
          resolve interfere curData curError sre).effects.observedIgnore =
          some true)) ∧
    (∀ pid e,
      (revalidateModel cmp st₀ key keyErr hasFn unmounted opts now newPid
        resolve interfere curData curError sre).effects.awaited = some pid →
      resolve pid = Except.error e →
      (revalidateModel cmp st₀ key keyErr hasFn unmounted opts now newPid
        resolve interfere curData curError sre).ret = true) := by
  by_cases hb : key = "" ∨ hasFn = false
  · constructor
    · simp only [revalidateModel, if_pos hb]
      rcases hb with hb | hb <;> simp [hb]
    · intro pid e haw _
      simp only [revalidateModel, if_pos hb] at haw
      simp at haw
  · by_cases hu : unmounted = true
    · constructor
      · simp only [revalidateModel, if_neg hb, if_pos hu]
        simp [hu]
      · intro pid e haw _
        simp only [revalidateModel, if_neg hb, if_pos hu] at haw
        simp at haw
    · obtain ⟨hb1, hb2⟩ := not_or.mp hb
      by_cases hd : ((st₀.concurrentPromises key).isSome &&
          (normalizeOpts opts).dedupe.getD false) = true
      · cases hres : resolve ((st₀.concurrentPromises key).getD 0) with
        | ok nd =>
          constructor
          · simp only [revalidateModel, if_neg hb, if_neg hu,
              hd, if_true, hres]
            rw [revalidateOnSuccess_ret]
            cases hig : shouldIgnoreRequest (interfere st₀) key
                (st₀.concurrentTS key) <;>
              simp [hig, hb1, hb2, hu]
          · intro pid e haw heq
            simp only [revalidateModel, if_neg hb, if_neg hu,
              hd, if_true, hres] at haw
            rw [Option.some_inj] at haw
            rw [← haw, hres] at heq
            exact absurd heq (by simp)
        | error err =>
          constructor
          · simp only [revalidateModel, if_neg hb, if_neg hu,
              hd, if_true, hres]
            simp [revalidateOnFailure_ret, hb1, hb2, hu]
          · intro pid e _ _
            simp only [revalidateModel, if_neg hb, if_neg hu,
              hd, if_true, hres]
            rfl
      · cases hres : resolve newPid with
        | ok nd =>
          constructor
          · simp only [revalidateModel, if_neg hb, if_neg hu,
              hd, if_false, hres]
            rw [revalidateOnSuccess_ret]
            cases hig : shouldIgnoreRequest
                (interfere
                  { st₀ with
                      concurrentPromises :=
                        updF st₀.concurrentPromises key (some newPid),
                      concurrentTS := updF st₀.concurrentTS key (some now) })
                key (some now) <;>
              simp [hig, hb1, hb2, hu]
          · intro pid e haw heq
            simp [revalidateModel, if_neg hb, if_neg hu, hd, hres] at haw
            have hpe : pid = newPid := by omega
            rw [hpe, hres] at heq
            exact absurd heq (by simp)
        | error err =>
          constructor
          · simp only [revalidateModel, if_neg hb, if_neg hu,
              hd, if_false, hres]
            simp [revalidateOnFailure_ret, hb1, hb2, hu]
          · intro pid e _ _
            simp only [revalidateModel, if_neg hb, if_neg hu,
              hd, if_false, hres]
            rfl

/-- C7 witness: a fresh fetch (promise 3 registered at `now = 5`) whose
fetcher rejects with object 1 still resolves to `true`. -/
theorem claim_C7_witness :
    (revalidateModel (fun _ _ => false) stEmpty "k" "err@k" true false
        ⟨none, none⟩ 5 3 (fun _ => Except.error (JSVal.obj 1)) id JSVal.undef
        JSVal.undef false).effects.awaited = some 3 ∧
    (fun _ : Nat => Except.error (JSVal.obj 1) : Nat → Except JSVal JSVal) 3 =
      Except.error (JSVal.obj 1) ∧
    (revalidateModel (fun _ _ => false) stEmpty "k" "err@k" true false
        ⟨none, none⟩ 5 3 (fun _ => Except.error (JSVal.obj 1)) id JSVal.undef
        JSVal.undef false).ret = true := by
  refine ⟨?_, rfl, ?_⟩
  · simp [revalidateModel, stEmpty, normalizeOpts]
  · exact (claim_C7 (fun _ _ => false) stEmpty "k" "err@k" true false
      ⟨none, none⟩ 5 3 (fun _ => Except.error (JSVal.obj 1)) id JSVal.undef
      JSVal.undef false).2 3 (JSVal.obj 1)
      (by simp [revalidateModel, stEmpty, normalizeOpts]) rfl

end SWR
